import Mathlib

/-!
Shallow embedding of the flotilla-os EKS execution core:
the EKS adapter (resource planning, env sanitization, job/run translation),
the EKS execution engine (submit classification, reconciliation, metrics
watermarks, pod-event merging) and the K8S/S3 log tailer (paginated reads).

Sources embedded:
  src/execution/adapter/eks_adapter.go
  src/execution/engine/eks_engine.go
  src/clients/logs/k8s_s3_logs_client.go

External collaborators (the kubernetes cluster client, the state Manager,
the metrics client, S3) are modelled as explicit observation parameters:
each cluster/API call outcome is an input to the embedded function, exactly
as the Go code consumes the call results.  Machine int64 values are
modelled as Int (no claim exercises overflow); timestamps are abstract
integer instants (pod creation timestamps are Nat because the Go zero
value of metav1.Time acts as instant 0 in the comparisons).
-/

namespace Flot

/-- Go strings: equality test of a char list as a leading segment of another
(used to build the substring test that models strings.Contains). -/
def leadsWith : List Char → List Char → Bool
  | [], _ => true
  | _ :: _, [] => false
  | a :: s, b :: t => a == b && leadsWith s t

/-- Go strings.Contains on char lists: needle occurs contiguously in hay. -/
def containsSeq (needle : List Char) : List Char → Bool
  | [] => needle.isEmpty
  | b :: t => leadsWith needle (b :: t) || containsSeq needle t

/-- Go strings.Contains(hay, needle). -/
def strContains (hay needle : String) : Bool :=
  containsSeq needle.toList hay.toList

/-- Go strings.ToLower restricted to ASCII (all needles in the source are
ASCII, and ASCII characters lowercase identically in Go and here). -/
def toLowerAscii (s : String) : String :=
  String.mk (s.toList.map Char.toLower)

/-- Go strconv.ParseInt digit run: all chars must be decimal digits and the
run must be nonempty. -/
def parseDigits (cs : List Char) : Option Nat :=
  match cs with
  | [] => none
  | _ :: _ =>
    cs.foldl (fun acc c =>
      acc.bind (fun n => if c.isDigit then some (10 * n + (c.toNat - 48)) else none))
      (some 0)

/-- Go strconv.ParseInt(s, 10, 64): optional sign then a nonempty digit run.
Cursor values in the claims are far below the int64 overflow bound, which is
therefore not modelled. -/
def parseIntGo (s : String) : Option Int :=
  match s.toList with
  | [] => none
  | c :: rest =>
    if c = '-' then (parseDigits rest).map (fun n => -(n : Int))
    else if c = '+' then (parseDigits rest).map (fun n => (n : Int))
    else (parseDigits (c :: rest)).map (fun n => (n : Int))

/-- Environment variable name/value pair (state.EnvVar). -/
structure EnvVar where
  name : String
  value : String
deriving DecidableEq

/-- Modelled from the spec: PodEvent value-equality uses all five fields
{Message, Timestamp, EventType, Reason, SourceObject}.  The state package
holding the Go struct and its Equal method is not under src/; the field
list follows the spec's data-model section and the engine's construction
of PodEvent at src/execution/engine/eks_engine.go lines 295-301. -/
structure PodEvent where
  message : String
  timestamp : Option Int
  eventType : String
  reason : String
  sourceObject : String
deriving DecidableEq

/-- Modelled from the spec: PodEvent.Equal compares all five fields. -/
def PodEvent.Equal (a b : PodEvent) : Bool :=
  a.message == b.message && a.timestamp == b.timestamp &&
  a.eventType == b.eventType && a.reason == b.reason &&
  a.sourceObject == b.sourceObject

/-- Run status (state.StatusQueued / StatusRunning / StatusStopped). -/
inductive RunStatus where
  | queued
  | running
  | stopped
deriving DecidableEq

/-- The Run record (state.Run), restricted to the fields the embedded
operations read or write.  Go pointer fields become Option. -/
structure Run where
  runID : String := ""
  definitionID : String := ""
  command : Option String := none
  cpu : Option Int := none
  memory : Option Int := none
  status : RunStatus := RunStatus.queued
  exitCode : Option Int := none
  exitReason : Option String := none
  startedAt : Option Int := none
  finishedAt : Option Int := none
  queuedAt : Option Int := none
  podName : Option String := none
  podNamespace : Option String := none
  containerName : Option String := none
  instanceDNSName : String := ""
  maxCpuUsed : Option Int := none
  maxMemoryUsed : Option Int := none
  podEvents : Option (List PodEvent) := none
  env : List EnvVar := []
deriving DecidableEq

/-- The zero-value Go state.Run, as produced by `var lastRun state.Run`
in eks_adapter.go getLastRun when the query fails or returns nothing. -/
def emptyRun : Run := {}

/-- Declared resources of a Definition/Executable
(ExecutableResources from the state package; pointers become Option). -/
structure ExecutableResources where
  cpu : Option Int := none
  memory : Option Int := none
  gpu : Option Int := none
  adaptiveResourceAllocation : Option Bool := none
  env : List EnvVar := []
deriving DecidableEq

/-- Global resource bounds MinCPU/MaxCPU/MinMem/MaxMem.  They live in the
state package (not under src/); the spec lists them as process-wide
configuration constants, so they are passed as explicit parameters. -/
structure Bounds where
  minCPU : Int
  maxCPU : Int
  minMem : Int
  maxMem : Int
deriving DecidableEq

/-- Outcome of the external state-Manager calls made by the adapter.
lastRun is the result of the ListRuns query issued by getLastRun
(most recent stopped run of the last 7 days with the same definition id
and exact command, on the EKS engine); none means the query errored or
returned no rows.  estimate is the result of EstimateRunResources as a
(cpu, memory) pair; none means it returned an error. -/
structure Manager where
  lastRun : Option Run := none
  estimate : Option (Int × Int) := none
deriving DecidableEq

/-- Go test res != nil && *res != 0 on an *int64 field. -/
def derefNonzero (x : Option Int) : Bool :=
  match x with
  | some v => v != 0
  | none => false

/-- eks_adapter.go getLastRun: the manager query result, or the zero-value
Run when the query errors or returns no runs. -/
def getLastRun (manager : Manager) : Run :=
  match manager.lastRun with
  | some r => r
  | none => emptyRun

/-- eks_adapter.go getResourceDefaults: seed cpu/mem from the priority
chain run override, then definition default, then global minimum; then the
large-memory override band [36864, 131072) raises cpu to mem/8 when no GPU
is requested.  Go int64 division truncates toward zero (Int.tdiv). -/
def getResourceDefaults (b : Bounds) (run : Run) (res : ExecutableResources) : Int × Int :=
  let cpu := if derefNonzero run.cpu then run.cpu.getD 0
    else if derefNonzero res.cpu then res.cpu.getD 0
    else b.minCPU
  let mem := if derefNonzero run.memory then run.memory.getD 0
    else if derefNonzero res.memory then res.memory.getD 0
    else b.minMem
  let gpuZero := match res.gpu with
    | none => true
    | some g => g == 0
  let cpu :=
    if 36864 ≤ mem ∧ mem < 131072 ∧ gpuZero = true then
      let cpuOverride := Int.tdiv mem 8
      if cpuOverride > cpu then cpuOverride else cpu
    else cpu
  (cpu, mem)

/-- Go conversion int64(float64(m) * 1.75) from eks_adapter.go line 247.
1.75 is exactly representable and float64(m) * 1.75 is exact for
|m| * 7 < 2^53 (every memory value in MiB in the claims is far below it);
the int64 conversion then truncates toward zero, which is Int.tdiv. -/
def mul175Trunc (m : Int) : Int :=
  Int.tdiv (7 * m) 4

/-- eks_adapter.go adaptiveResources, the request-selection part that runs
before the limit-raise and clamping steps (lines 240-258): the pair
(cpuRequest, memRequest).  Go dereferences lastRun.Memory and lastRun.Cpu
in the OOM branch (a nil pointer there would panic); the embedding reads
them with default 0, and every theorem instantiates them as set. -/
def adaptiveRequests (b : Bounds) (res : ExecutableResources) (run : Run)
    (manager : Manager) (araEnabled : Bool) : Int × Int :=
  let (cpuRequest, memRequest) := getResourceDefaults b run res
  if araEnabled ∧ res.adaptiveResourceAllocation = some true then
    let lastRun := getLastRun manager
    if (match lastRun.exitReason with
        | some r => strContains r "OOMKilled"
        | none => false) then
      (lastRun.cpu.getD 0, mul175Trunc (lastRun.memory.getD 0))
    else
      match manager.estimate with
      | some (c, m) => (c, m)
      | none => (cpuRequest, memRequest)
  else (cpuRequest, memRequest)

/-- eks_adapter.go checkResourceBounds: clamp a (cpu, mem) pair into the
global bounds, low bound applied first. -/
def checkResourceBounds (b : Bounds) (cpu mem : Int) : Int × Int :=
  let cpu := if cpu < b.minCPU then b.minCPU else cpu
  let cpu := if cpu > b.maxCPU then b.maxCPU else cpu
  let mem := if mem < b.minMem then b.minMem else mem
  let mem := if mem > b.maxMem then b.maxMem else mem
  (cpu, mem)

/-- eks_adapter.go adaptiveResources (lines 239-271): defaults for the
limits, adaptive selection for the requests, limit raised to the request
where the request exceeds it, then both pairs clamped.  Returns
(cpuLimit, memLimit, cpuRequest, memRequest) in source order. -/
def adaptiveResources (b : Bounds) (res : ExecutableResources) (run : Run)
    (manager : Manager) (araEnabled : Bool) : Int × Int × Int × Int :=
  let defaults := getResourceDefaults b run res
  let requests := adaptiveRequests b res run manager araEnabled
  let cpuLimit := if requests.1 > defaults.1 then requests.1 else defaults.1
  let memLimit := if requests.2 > defaults.2 then requests.2 else defaults.2
  let boundedRequests := checkResourceBounds b requests.1 requests.2
  let boundedLimits := checkResourceBounds b cpuLimit memLimit
  (boundedLimits.1, boundedLimits.2, boundedRequests.1, boundedRequests.2)

/-- Go strings.Replace(s, c, "", 1) on char lists: drop the first
occurrence of c. -/
def removeFirstChar (c : Char) : List Char → List Char
  | [] => []
  | a :: t => if a = c then t else a :: removeFirstChar c t

/-- eks_adapter.go sanitizeEnvVar: when the name starts with '$' remove the
first '$' occurrence, then remove every space. -/
def sanitizeEnvVar (key : String) : String :=
  let k := match key.toList with
    | '$' :: _ => String.mk (removeFirstChar '$' key.toList)
    | _ => key
  String.mk (k.toList.filter (fun c => c ≠ ' '))

/-- Go map insert pairs[name] = value, modelled as an association list
updated in place on collision (Go map iteration order is unspecified;
every property proved below is order-independent). -/
def upsert (pairs : List (String × String)) (k v : String) : List (String × String) :=
  if pairs.any (fun p => p.1 == k) then
    pairs.map (fun p => if p.1 == k then (k, v) else p)
  else pairs ++ [(k, v)]

/-- eks_adapter.go envOverrides: definition env entered first, run env
second (run wins on collision), names sanitized, empty names dropped when
the container env list is built. -/
def envOverrides (res : ExecutableResources) (run : Run) : List EnvVar :=
  let pairs := res.env.foldl (fun acc ev => upsert acc (sanitizeEnvVar ev.name) ev.value) []
  let pairs := run.env.foldl (fun acc ev => upsert acc (sanitizeEnvVar ev.name) ev.value) pairs
  (pairs.filter (fun p => p.1.length > 0)).map (fun p => { name := p.1, value := p.2 })

/-- One line of the S3 log object, as the tailer sees it after the JSON
parse attempt: some logField when json.Unmarshal succeeds (the line's
"log" field), none when the line is malformed.  Lines are the
newline-terminated segments bufio Reader.ReadBytes returns; reading past
the last one yields io.EOF. -/
abbrev LogLine := Option String

/-- k8s_s3_logs_client.go logsToMessageString, second loop (lines 241-256):
while currentPosition ≤ startingPosition + MaxLogLines, advance the
position, read a line (EOF returns the accumulator and the advanced
position), and append the log field of each JSON-parseable line.
Here pos is currentPosition, sM is startingPosition + MaxLogLines. -/
def readLoop (sM : Nat) : List LogLine → Nat → String → String × Nat
  | [], pos, acc => if pos ≤ sM then (acc, pos + 1) else (acc, pos)
  | l :: rest, pos, acc =>
    if pos ≤ sM then
      readLoop sM rest (pos + 1)
        (match l with
         | some s => acc ++ s
         | none => acc)
    else (acc, pos)

/-- k8s_s3_logs_client.go logsToMessageString (lines 213-259): normalize a
nonpositive starting position to 0, discard startingPosition lines (EOF in
that phase returns "" and the starting position), then run the bounded
read loop.  maxLogLines stands for state.MaxLogLines (the state package is
not under src/; the spec treats it as a global constant). -/
def logsToMessageString (maxLogLines : Nat) (lines : List LogLine)
    (startingPosition : Int) : String × Int :=
  let s : Nat := startingPosition.toNat
  if lines.length < s then ("", (s : Int))
  else
    let r := readLoop (s + maxLogLines) (lines.drop s) s ""
    (r.1, (r.2 : Int))

/-- k8s_s3_logs_client.go Logs (lines 93-110) for a run whose S3 object was
found: parse the cursor (missing or unparseable means position 0), read,
and return the accumulated text with the advanced position rendered back
into a cursor string. -/
def LogsCall (maxLogLines : Nat) (lines : List LogLine)
    (lastSeen : Option String) : String × String :=
  let startPosition : Int :=
    match lastSeen with
    | none => 0
    | some s =>
      match parseIntGo s with
      | some parsed => parsed
      | none => 0
  let r := logsToMessageString maxLogLines lines startPosition
  (r.1, toString r.2)

/-- A container spec inside a pod: the name, the wrapped command, and the
declared resource limits already scaled the way the engine reads them
(cpu in millicores, memory in megas). -/
structure Container where
  name : String := ""
  command : List String := []
  limitsCpuMilli : Int := 0
  limitsMemMega : Int := 0
deriving DecidableEq

/-- A container status terminated record (reason, exit code). -/
structure TerminatedState where
  reason : String := ""
  exitCode : Int := 0
deriving DecidableEq

/-- A pod as the engine reads it: name, namespace, node name, creation
timestamp (Nat, the Go zero value of metav1.Time acting as instant 0),
spec containers, and per-container-status terminated records (none when
State.Terminated is nil). -/
structure Pod where
  name : String := ""
  podNamespace : String := ""
  nodeName : String := ""
  creationTimestamp : Nat := 0
  containers : List Container := []
  containerStatuses : List (Option TerminatedState) := []
deriving DecidableEq

/-- The observed batchv1.Job status fields the adapter reads. -/
structure JobStatus where
  active : Int := 0
  succeeded : Int := 0
  failed : Int := 0
  startTime : Option Int := none
  completionTime : Option Int := none
deriving DecidableEq

/-- eks_adapter.go AdaptJobToFlotillaRun (lines 30-75): job status to run
status and exit data, command rewrite from the pod's first container,
StartedAt from the job start time, FinishedAt stamped on stop (completion
time if present, otherwise the current instant now). -/
def AdaptJobToFlotillaRun (now : Int) (job : JobStatus) (run : Run)
    (pod : Option Pod) : Run :=
  let updated := run
  let updated :=
    if job.active = 1 ∧ job.completionTime = none then
      { updated with status := RunStatus.running }
    else if job.succeeded = 1 then
      { updated with status := RunStatus.stopped, exitCode := some 0 }
    else if job.failed = 1 then
      match pod with
      | some p =>
        match p.containerStatuses.getLast? with
        | some (some t) =>
          { updated with status := RunStatus.stopped,
                         exitReason := some t.reason, exitCode := some t.exitCode }
        | _ => { updated with status := RunStatus.stopped, exitCode := some 1 }
      | none => { updated with status := RunStatus.stopped, exitCode := some 1 }
    else updated
  let updated :=
    match pod with
    | some p =>
      match p.containers.head? with
      | some c =>
        if c.command.length > 3 then
          { updated with command := some (String.intercalate "\n" (c.command.drop 3)) }
        else updated
      | none => updated
    | none => updated
  let updated :=
    match job.startTime with
    | some t => { updated with startedAt := some t }
    | none => updated
  let updated :=
    if updated.status = RunStatus.stopped then
      match job.completionTime with
      | some t => { updated with finishedAt := some t }
      | none => { updated with finishedAt := some now }
    else updated
  updated

/-- eks_engine.go getInstanceDetails (lines 158-163). -/
def getInstanceDetails (pod : Pod) (run : Run) : Run :=
  if pod.nodeName.length > 0 then { run with instanceDNSName := pod.nodeName }
  else run

/-- eks_engine.go getPodName (lines 133-156) once the pod list arrived:
take the last pod of the list and fill placement and the last container's
name and limits into the run. -/
def getPodNameUpdate (run : Run) (pods : List Pod) : Run :=
  match pods.getLast? with
  | none => run
  | some pod =>
    let run := { run with podName := some pod.name, podNamespace := some pod.podNamespace }
    match pod.containers.getLast? with
    | some container =>
      let run := { run with containerName := some container.name,
                            cpu := some container.limitsCpuMilli }
      let run := getInstanceDetails pod run
      { run with memory := some container.limitsMemMega }
    | none => run

/-- eks_engine.go Execute (lines 103-131).  createErr is the message of the
error the cluster Create returned, none on success; job is the created Job
result and pods the best-effort pod listing used on the success path. -/
def Execute (now : Int) (run : Run) (createErr : Option String)
    (job : JobStatus) (pods : List Pod) : Run × Bool × Option String :=
  match createErr with
  | some msg =>
    if strContains (toLowerAscii msg) "already exists" then (run, false, none)
    else if strContains (toLowerAscii msg) "is invalid" then
      ({ run with exitReason := some msg }, false, some msg)
    else (run, true, some msg)
  | none =>
    let run := getPodNameUpdate run pods
    (AdaptJobToFlotillaRun now job run none, false, none)

/-- eks_engine.go FetchUpdateStatus pod selection loop (lines 348-362).
The loop keeps the running maximum timestamp by value but stores the
address of the range loop variable (mostRecentPod = &p), so once any
iteration fires, the pointer observed after the loop holds the value of
the final iterate: the selected pod is the last pod of the list, not the
one that achieved the maximum timestamp. -/
def selectMostRecentPod (pods : List Pod) : Option Pod :=
  let fired := pods.foldl
    (fun (st : Bool × Nat) p =>
      if st.2 < p.creationTimestamp ∨ pods.length = 1 then (true, p.creationTimestamp)
      else st)
    (false, 0)
  if fired.1 then pods.getLast? else none

/-- eks_engine.go FetchUpdateStatus pod phase (lines 348-393): select the
pod, update PodName when absent or different, refill InstanceDNSName when
empty, refresh ContainerName/Cpu/Memory from the pod's last container. -/
def podPhase (run : Run) (pods : List Pod) : Run × Option Pod :=
  match selectMostRecentPod pods with
  | none => (run, none)
  | some p =>
    let run :=
      if run.podName = none ∨ ¬ (some p.name = run.podName) then
        getInstanceDetails p { run with podName := some p.name }
      else run
    let run := if run.instanceDNSName.length = 0 then getInstanceDetails p run else run
    let run :=
      match p.containers.getLast? with
      | some c =>
        { run with containerName := some c.name,
                   cpu := some c.limitsCpuMilli,
                   memory := some c.limitsMemMega }
      | none => run
    (run, some p)

/-- Outcome of the metrics client call for the run's pod: none is a client
error; some none is a response with an empty Containers list; otherwise
the first container's usage (memory in megas, cpu in millicores). -/
structure MetricsUsage where
  memMega : Int
  cpuMilli : Int
deriving DecidableEq

/-- eks_engine.go FetchPodMetrics watermark update (lines 327-334): the
stored maximum is replaced when it is nil, zero, or strictly below the
observed usage, and kept otherwise. -/
def advanceWatermark (old : Option Int) (obs : Int) : Option Int :=
  match old with
  | none => some obs
  | some v => if v = 0 ∨ v < obs then some obs else old

/-- eks_engine.go FetchPodMetrics (lines 318-339): without a pod name the
call errors; with one, advance the MaxMemoryUsed / MaxCpuUsed watermarks
when unset, zero, or strictly below the observed usage. -/
def FetchPodMetrics (metricsResult : Option (Option MetricsUsage)) (run : Run) :
    Run × Option String :=
  match run.podName with
  | none => (run, some "no pod associated with the run.")
  | some _ =>
    match metricsResult with
    | none => (run, some "metrics client error")
    | some none => (run, none)
    | some (some usage) =>
      let run := { run with maxMemoryUsed := advanceWatermark run.maxMemoryUsed usage.memMega }
      let run := { run with maxCpuUsed := advanceWatermark run.maxCpuUsed usage.cpuMilli }
      (run, none)

/-- eks_engine.go GetEvents (lines 282-316): a run without a pod name gets
an empty event list and no error; otherwise the cluster query result is
returned (clusterEvents none models the query error). -/
def GetEvents (clusterEvents : Option (List PodEvent)) (run : Run) :
    Option (List PodEvent) :=
  match run.podName with
  | none => some []
  | some _ => clusterEvents

/-- eks_engine.go FetchUpdateStatus merge step for one incoming event
(lines 404-415): append it unless a value-equal event is already present. -/
def mergeOne (prior : List PodEvent) (e : PodEvent) : List PodEvent :=
  if prior.any (fun pe => pe.Equal e) then prior else prior ++ [e]

/-- eks_engine.go FetchUpdateStatus event merge (lines 400-420): with a
nonempty prior list, fold each new event through the deduplicated append
(each event is compared against the list as grown so far); with a nil or
empty prior list the incoming list is installed as is. -/
def mergeEvents (prior : Option (List PodEvent)) (newEvents : List PodEvent) :
    List PodEvent :=
  match prior with
  | some priorEvents =>
    if priorEvents.length > 0 then newEvents.foldl mergeOne priorEvents
    else newEvents
  | none => newEvents

/-- eks_engine.go FetchUpdateStatus (lines 341-433).  Observation
parameters: jobResult is the Get call outcome (none = error, the run is
returned unchanged with the error); podsResult the pod listing outcome;
metricsResult the metrics call outcome; clusterEvents the events query
outcome; terminateOk whether the Terminate issued for a dangling job
succeeded.  QueuedAt is dereferenced by the Go code in the dangling-job
test (nil would panic there); the embedding reads it with default 0. -/
def FetchUpdateStatus (now : Int) (jobResult : Option JobStatus)
    (podsResult : Option (List Pod)) (metricsResult : Option (Option MetricsUsage))
    (clusterEvents : Option (List PodEvent)) (terminateOk : Bool) (run : Run) :
    Run × Option String :=
  match jobResult with
  | none => (run, some "error getting job")
  | some job =>
    let state :=
      match podsResult with
      | some pods =>
        if pods.length > 0 then podPhase run pods else (run, none)
      | none => (run, none)
    let run := state.1
    let mostRecentPod := state.2
    let run := (FetchPodMetrics metricsResult run).1
    let eventsResult := GetEvents clusterEvents run
    let run :=
      match eventsResult with
      | some evs =>
        if evs.length > 0 then { run with podEvents := some (mergeEvents run.podEvents evs) }
        else run
      | none => run
    let hoursBack := now - 24
    let dangling :=
      eventsResult.isSome = true ∧ podsResult = some [] ∧ ¬ run.podName = none ∧
        run.queuedAt.getD 0 < hoursBack
    let jp :=
      if dangling ∧ terminateOk = true then ({ job with failed := 1 }, (none : Option Pod))
      else (job, mostRecentPod)
    (AdaptJobToFlotillaRun now jp.1 run jp.2, none)

/-- Concatenation of a list of log fields in order (used to state what the
paginated reader accumulates). -/
def joinAll : List String → String
  | [] => ""
  | s :: t => s ++ joinAll t

/-- The line offset a Logs call starts from: the parsed cursor clamped to
zero, with a missing or unparseable cursor meaning zero. -/
def startOf (cursor : Option String) : Nat :=
  (match cursor with
   | none => (0 : Int)
   | some s =>
     match parseIntGo s with
     | some parsed => parsed
     | none => 0).toNat

/-- Demo log field of line i for the 120-line pagination scenario. -/
def demoLog (i : Nat) : String := toString i ++ ";"

/-- The 120-line S3 object of the pagination scenario: line i carries log
field demoLog i and every line parses. -/
def demoLines : List LogLine := (List.range 120).map (fun i => some (demoLog i))

/-- Concrete bounds used by witnesses. -/
def demoBounds : Bounds := { minCPU := 512, maxCPU := 51200, minMem := 512, maxMem := 1048576 }

/-- Concrete adaptive definition resources used by the C1 theorems. -/
def oomRes : ExecutableResources := { adaptiveResourceAllocation := some true }

/-- Concrete prior OOM-killed run (memory 4001 MiB, cpu 1500 mC). -/
def oomLastRun : Run := { exitReason := some "OOMKilled", memory := some 4001, cpu := some 1500 }

/-- Concrete manager whose last-run query returns the OOM-killed run. -/
def oomMgr : Manager := { lastRun := some oomLastRun }

/-- Concrete pods for the selection claim: pod-a is created later (instant
5) than pod-b (instant 3) but pod-b is the final list element. -/
def olderLastPod : Pod := { name := "pod-b", creationTimestamp := 3 }

/-- The newest pod of the selection scenario, first in the list. -/
def newestFirstPod : Pod := { name := "pod-a", creationTimestamp := 5 }

/-- Concrete pod events used by witnesses. -/
def evA : PodEvent := { message := "Pulling image", timestamp := some 1,
                        eventType := "Normal", reason := "Pulling", sourceObject := "ev-a" }

/-- A second concrete pod event. -/
def evB : PodEvent := { message := "Started container", timestamp := some 2,
                        eventType := "Normal", reason := "Started", sourceObject := "ev-b" }

end Flot

namespace Flot

theorem crb_bounds (b : Bounds) (c m : Int) (hc : b.minCPU ≤ b.maxCPU) (hm : b.minMem ≤ b.maxMem) :
    b.minCPU ≤ (checkResourceBounds b c m).1 ∧ (checkResourceBounds b c m).1 ≤ b.maxCPU ∧
    b.minMem ≤ (checkResourceBounds b c m).2 ∧ (checkResourceBounds b c m).2 ≤ b.maxMem := by
  simp only [checkResourceBounds]
  split_ifs <;> omega

theorem crb_mono (b : Bounds) (c c2 m m2 : Int) (h1 : c ≤ c2) (h2 : m ≤ m2) :
    (checkResourceBounds b c m).1 ≤ (checkResourceBounds b c2 m2).1 ∧
    (checkResourceBounds b c m).2 ≤ (checkResourceBounds b c2 m2).2 := by
  simp only [checkResourceBounds]
  split_ifs <;> omega

/-- C3: after planning, MinCPU ≤ cpuRequest ≤ cpuLimit ≤ MaxCPU and
MinMem ≤ memRequest ≤ memLimit ≤ MaxMem: each limit is raised to the
request where the request exceeds it, and both pairs are clamped into the
global bounds, which preserves request ≤ limit on both axes. -/
theorem planner_request_limit_bounds (b : Bounds) (res : ExecutableResources) (run : Run)
    (mgr : Manager) (ara : Bool) (hc : b.minCPU ≤ b.maxCPU) (hm : b.minMem ≤ b.maxMem) :
    b.minCPU ≤ (adaptiveResources b res run mgr ara).2.2.1 ∧
    (adaptiveResources b res run mgr ara).2.2.1 ≤ (adaptiveResources b res run mgr ara).1 ∧
    (adaptiveResources b res run mgr ara).1 ≤ b.maxCPU ∧
    b.minMem ≤ (adaptiveResources b res run mgr ara).2.2.2 ∧
    (adaptiveResources b res run mgr ara).2.2.2 ≤ (adaptiveResources b res run mgr ara).2.1 ∧
    (adaptiveResources b res run mgr ara).2.1 ≤ b.maxMem := by
  simp only [adaptiveResources]
  have hreq := crb_bounds b (adaptiveRequests b res run mgr ara).1 (adaptiveRequests b res run mgr ara).2 hc hm
  have hlimc : (adaptiveRequests b res run mgr ara).1 ≤
      (if (adaptiveRequests b res run mgr ara).1 > (getResourceDefaults b run res).1 then
        (adaptiveRequests b res run mgr ara).1 else (getResourceDefaults b run res).1) := by
    split_ifs <;> omega
  have hlimm : (adaptiveRequests b res run mgr ara).2 ≤
      (if (adaptiveRequests b res run mgr ara).2 > (getResourceDefaults b run res).2 then
        (adaptiveRequests b res run mgr ara).2 else (getResourceDefaults b run res).2) := by
    split_ifs <;> omega
  have hmono := crb_mono b (adaptiveRequests b res run mgr ara).1 _ (adaptiveRequests b res run mgr ara).2 _ hlimc hlimm
  have hlim := crb_bounds b
    (if (adaptiveRequests b res run mgr ara).1 > (getResourceDefaults b run res).1 then
      (adaptiveRequests b res run mgr ara).1 else (getResourceDefaults b run res).1)
    (if (adaptiveRequests b res run mgr ara).2 > (getResourceDefaults b run res).2 then
      (adaptiveRequests b res run mgr ara).2 else (getResourceDefaults b run res).2) hc hm
  exact ⟨hreq.1, hmono.1, hlim.2.1, hreq.2.2.1, hmono.2, hlim.2.2.2⟩

theorem planner_request_limit_bounds_witness :
    demoBounds.minCPU ≤ (adaptiveResources demoBounds oomRes emptyRun oomMgr true).2.2.1 ∧
    (adaptiveResources demoBounds oomRes emptyRun oomMgr true).2.2.1 ≤ (adaptiveResources demoBounds oomRes emptyRun oomMgr true).1 ∧
    (adaptiveResources demoBounds oomRes emptyRun oomMgr true).1 ≤ demoBounds.maxCPU ∧
    demoBounds.minMem ≤ (adaptiveResources demoBounds oomRes emptyRun oomMgr true).2.2.2 ∧
    (adaptiveResources demoBounds oomRes emptyRun oomMgr true).2.2.2 ≤ (adaptiveResources demoBounds oomRes emptyRun oomMgr true).2.1 ∧
    (adaptiveResources demoBounds oomRes emptyRun oomMgr true).2.1 ≤ demoBounds.maxMem :=
  planner_request_limit_bounds demoBounds oomRes emptyRun oomMgr true (by decide) (by decide)

/-- C1 counterexample: with a prior OOM-killed run of memory 4001 MiB the
code computes memRequest 7001 = floor(4001 x 1.75), not the claimed
ceil(4001 x 1.75) = 7002. -/
theorem ara_oom_ceil_counterexample :
    adaptiveRequests demoBounds oomRes emptyRun oomMgr true = (1500, 7001) ∧
    ¬ (adaptiveRequests demoBounds oomRes emptyRun oomMgr true).2 = 7002 := by
  decide

/-- C1 (amended): for an adaptive run whose most recent prior terminal run
was OOM-killed, memRequest is floor(priorMem x 1.75) (the Go int64
conversion truncates) and cpuRequest = priorCpu, before the limit-raise
and clamping steps. -/
theorem ara_oom_floor (b : Bounds) (res : ExecutableResources) (run : Run)
    (mgr : Manager) (lr : Run) (reason : String) (pm pc : Int)
    (hlr : mgr.lastRun = some lr) (hara : res.adaptiveResourceAllocation = some true)
    (hreason : lr.exitReason = some reason) (hoom : strContains reason "OOMKilled" = true)
    (hmem : lr.memory = some pm) (hcpu : lr.cpu = some pc) (hpm : 0 ≤ pm) :
    (adaptiveRequests b res run mgr true).1 = pc ∧
    4 * (adaptiveRequests b res run mgr true).2 ≤ 7 * pm ∧
    7 * pm < 4 * (adaptiveRequests b res run mgr true).2 + 4 := by
  have hsel : adaptiveRequests b res run mgr true = (pc, mul175Trunc pm) := by
    unfold adaptiveRequests getLastRun
    rw [hlr]
    simp [hara, hreason, hoom, hmem, hcpu]
  rw [hsel]
  refine ⟨rfl, ?_, ?_⟩ <;>
    simp only [mul175Trunc] <;>
    rw [Int.tdiv_eq_ediv (by omega) (by omega)] <;> omega

theorem ara_oom_floor_witness :
    (adaptiveRequests demoBounds oomRes emptyRun oomMgr true).1 = 1500 ∧
    4 * (adaptiveRequests demoBounds oomRes emptyRun oomMgr true).2 ≤ 7 * 4001 ∧
    7 * 4001 < 4 * (adaptiveRequests demoBounds oomRes emptyRun oomMgr true).2 + 4 :=
  ara_oom_floor demoBounds oomRes emptyRun oomMgr oomLastRun "OOMKilled" 4001 1500
    rfl rfl rfl (by decide) rfl rfl (by decide)

/-- C10: a run without a pod name gets an empty pod-event list with no
error from GetEvents, while FetchPodMetrics on the same run errors. -/
theorem no_pod_events_ok_metrics_err (run : Run) (clusterEvents : Option (List PodEvent))
    (m : Option (Option MetricsUsage)) (hpn : run.podName = none) :
    GetEvents clusterEvents run = some [] ∧
    (FetchPodMetrics m run).2 = some "no pod associated with the run." := by
  unfold GetEvents FetchPodMetrics
  rw [hpn]
  exact ⟨rfl, rfl⟩

theorem no_pod_events_ok_metrics_err_witness :
    GetEvents (some [evA]) emptyRun = some [] ∧
    (FetchPodMetrics (some (some { memMega := 5, cpuMilli := 6 })) emptyRun).2 =
      some "no pod associated with the run." :=
  no_pod_events_ok_metrics_err emptyRun (some [evA]) (some (some { memMega := 5, cpuMilli := 6 })) rfl

theorem advanceWatermark_mono (old : Option Int) (obs v : Int) (hobs : 0 ≤ obs)
    (h : old = some v) : ∃ w, advanceWatermark old obs = some w ∧ v ≤ w := by
  subst h
  simp only [advanceWatermark]
  split_ifs with h1
  · exact ⟨obs, rfl, by omega⟩
  · exact ⟨v, rfl, le_refl v⟩

/-- C9: the MaxMemoryUsed and MaxCpuUsed watermarks never decrease: a set
watermark is replaced only when it is zero or strictly below the observed
(nonnegative) usage. -/
theorem watermarks_monotone (m : Option (Option MetricsUsage)) (run : Run)
    (husage : ∀ u, m = some (some u) → 0 ≤ u.memMega ∧ 0 ≤ u.cpuMilli) :
    (∀ v, run.maxMemoryUsed = some v →
       ∃ w, (FetchPodMetrics m run).1.maxMemoryUsed = some w ∧ v ≤ w) ∧
    (∀ v, run.maxCpuUsed = some v →
       ∃ w, (FetchPodMetrics m run).1.maxCpuUsed = some w ∧ v ≤ w) := by
  unfold FetchPodMetrics
  cases hpn : run.podName with
  | none => simp_all
  | some pn =>
    cases m with
    | none => simp_all
    | some inner =>
      cases inner with
      | none => simp_all
      | some u =>
        have hu := husage u rfl
        constructor
        · intro v hv
          simpa using advanceWatermark_mono run.maxMemoryUsed u.memMega v hu.1 hv
        · intro v hv
          simpa using advanceWatermark_mono run.maxCpuUsed u.cpuMilli v hu.2 hv

theorem watermarks_monotone_witness :
    (∀ v, ({ emptyRun with podName := some "p", maxMemoryUsed := some 7 } : Run).maxMemoryUsed = some v →
       ∃ w, (FetchPodMetrics (some (some { memMega := 5, cpuMilli := 6 }))
               { emptyRun with podName := some "p", maxMemoryUsed := some 7 }).1.maxMemoryUsed = some w ∧ v ≤ w) ∧
    (∀ v, ({ emptyRun with podName := some "p", maxMemoryUsed := some 7 } : Run).maxCpuUsed = some v →
       ∃ w, (FetchPodMetrics (some (some { memMega := 5, cpuMilli := 6 }))
               { emptyRun with podName := some "p", maxMemoryUsed := some 7 }).1.maxCpuUsed = some w ∧ v ≤ w) :=
  watermarks_monotone (some (some { memMega := 5, cpuMilli := 6 }))
    { emptyRun with podName := some "p", maxMemoryUsed := some 7 }
    (by intro u hu; cases hu; exact ⟨by decide, by decide⟩)

end Flot

namespace Flot

/-- C4 counterexample: a submission error whose message matches the
duplicate pattern only after lowercasing is treated as idempotent success,
although the claim's literal classification (message contains neither
substring) requires retryable=true with the error. -/
theorem execute_case_sensitivity_counterexample :
    strContains "ALREADY EXISTS" "already exists" = false ∧
    strContains "ALREADY EXISTS" "is invalid" = false ∧
    Execute 0 emptyRun (some "ALREADY EXISTS") {} [] = (emptyRun, false, none) := by
  decide

/-- C4 (amended): Execute classifies every cluster submission error by its
lowercased message: a message containing "already exists" (matched
case-insensitively) is idempotent success (run, retryable=false, no
error); otherwise one containing "is invalid" stamps run.ExitReason with
the error text and returns it non-retryably; any other error is
retryable.  A successful submission also returns retryable=false with no
error, so two Executes of the same RunID both return success. -/
theorem execute_classification (now : Int) (run : Run) (msg : String)
    (job : JobStatus) (pods : List Pod) :
    (strContains (toLowerAscii msg) "already exists" = true →
      Execute now run (some msg) job pods = (run, false, none)) ∧
    (strContains (toLowerAscii msg) "already exists" = false →
      strContains (toLowerAscii msg) "is invalid" = true →
      Execute now run (some msg) job pods = ({ run with exitReason := some msg }, false, some msg)) ∧
    (strContains (toLowerAscii msg) "already exists" = false →
      strContains (toLowerAscii msg) "is invalid" = false →
      Execute now run (some msg) job pods = (run, true, some msg)) ∧
    (Execute now run none job pods).2.1 = false ∧
    (Execute now run none job pods).2.2 = none := by
  unfold Execute
  refine ⟨?_, ?_, ?_, ?_, ?_⟩
  · intro h; simp [h]
  · intro h1 h2; simp [h1, h2]
  · intro h1 h2; simp [h1, h2]
  · rfl
  · rfl

theorem execute_classification_witness :
    Execute 0 emptyRun (some "jobs.batch already exists") {} [] = (emptyRun, false, none) ∧
    Execute 0 emptyRun (some "Job.batch is invalid: bad") {} [] =
      ({ emptyRun with exitReason := some "Job.batch is invalid: bad" }, false,
        some "Job.batch is invalid: bad") ∧
    Execute 0 emptyRun (some "connection refused") {} [] =
      (emptyRun, true, some "connection refused") :=
  ⟨(execute_classification 0 emptyRun "jobs.batch already exists" {} []).1 (by decide),
   (execute_classification 0 emptyRun "Job.batch is invalid: bad" {} []).2.1 (by decide) (by decide),
   (execute_classification 0 emptyRun "connection refused" {} []).2.2.1 (by decide) (by decide)⟩

/-- C7: the reconciliation pod-selection loop stores the address of the
range loop variable, so with pods [pod-a (created at instant 5), pod-b
(created at instant 3)] the engine selects pod-b, the final iterate,
although pod-a has the latest CreationTimestamp, and run.PodName is set
to pod-b.  This evaluates the code at the failing input of the claim. -/
theorem pod_selection_aliasing_bug :
    olderLastPod.creationTimestamp < newestFirstPod.creationTimestamp ∧
    selectMostRecentPod [newestFirstPod, olderLastPod] = some olderLastPod ∧
    (podPhase emptyRun [newestFirstPod, olderLastPod]).1.podName = some "pod-b" := by
  decide

theorem sanitize_no_space (key : String) :
    ((sanitizeEnvVar key).toList.all fun c => c ≠ ' ') = true := by
  unfold sanitizeEnvVar
  simp only [List.all_eq_true]
  intro c hc
  have : (String.mk ((match key.toList with
      | '$' :: _ => String.mk (removeFirstChar '$' key.toList)
      | _ => key).toList.filter (fun c => c ≠ ' '))).toList
      = (match key.toList with
      | '$' :: _ => String.mk (removeFirstChar '$' key.toList)
      | _ => key).toList.filter (fun c => c ≠ ' ') := rfl
  rw [this] at hc
  exact (List.mem_filter.mp hc).2

theorem upsert_keyPred (Q : String → Prop) (acc : List (String × String)) (k v : String)
    (hacc : ∀ p ∈ acc, Q p.1) (hk : Q k) : ∀ p ∈ upsert acc k v, Q p.1 := by
  intro p hp
  unfold upsert at hp
  split_ifs at hp with h
  · rcases List.mem_map.mp hp with ⟨q, hq, hpq⟩
    by_cases hqk : q.1 == k
    · rw [if_pos hqk] at hpq
      rw [← hpq]
      exact hk
    · rw [if_neg hqk] at hpq
      rw [← hpq]
      exact hacc q hq
  · rcases List.mem_append.mp hp with h1 | h1
    · exact hacc p h1
    · simp only [List.mem_singleton] at h1
      rw [h1]
      exact hk

theorem foldl_upsert_keyPred (Q : String → Prop) (evs : List EnvVar)
    (acc : List (String × String)) (hacc : ∀ p ∈ acc, Q p.1)
    (hevs : ∀ ev ∈ evs, Q (sanitizeEnvVar ev.name)) :
    ∀ p ∈ evs.foldl (fun a ev => upsert a (sanitizeEnvVar ev.name) ev.value) acc, Q p.1 := by
  induction evs generalizing acc with
  | nil => simpa using hacc
  | cons e t ih =>
    simp only [List.foldl_cons]
    exact ih _ (upsert_keyPred Q acc _ _ hacc (hevs e (by simp)))
      (fun ev hev => hevs ev (by simp [hev]))

/-- C8 (amended): every environment variable name in the built container
is nonempty, contains no space, and is the sanitized form of some input
name (definition-level or run-level), where sanitization removes a single
leading '$' and all spaces; a resulting name can therefore still begin
with '$' when the original name began with two. -/
theorem env_names_sanitized (res : ExecutableResources) (run : Run) :
    ∀ ev ∈ envOverrides res run,
      ev.name.length > 0 ∧
      (ev.name.toList.all fun c => c ≠ ' ') = true ∧
      ∃ src, (src ∈ res.env ∨ src ∈ run.env) ∧ ev.name = sanitizeEnvVar src.name := by
  intro ev hev
  unfold envOverrides at hev
  rcases List.mem_map.mp hev with ⟨p, hp, hpev⟩
  rcases List.mem_filter.mp hp with ⟨hp1, hp2⟩
  have hQ : ∃ src, (src ∈ res.env ∨ src ∈ run.env) ∧ p.1 = sanitizeEnvVar src.name := by
    refine foldl_upsert_keyPred
      (fun s => ∃ src, (src ∈ res.env ∨ src ∈ run.env) ∧ s = sanitizeEnvVar src.name)
      run.env _ ?_ ?_ p hp1
    · exact foldl_upsert_keyPred
        (fun s => ∃ src, (src ∈ res.env ∨ src ∈ run.env) ∧ s = sanitizeEnvVar src.name)
        res.env [] (by simp) (fun ev2 h2 => ⟨ev2, Or.inl h2, rfl⟩)
    · exact fun ev2 h2 => ⟨ev2, Or.inr h2, rfl⟩
  rw [← hpev]
  refine ⟨by simpa using hp2, ?_, hQ⟩
  rcases hQ with ⟨src, _, hsan⟩
  simpa [hsan] using sanitize_no_space src.name

theorem env_names_sanitized_witness :
    ({ name := "FOOBAR", value := "v" } : EnvVar).name.length > 0 ∧
    (({ name := "FOOBAR", value := "v" } : EnvVar).name.toList.all fun c => c ≠ ' ') = true ∧
    ∃ src, (src ∈ ({ env := [{ name := "$FOO BAR", value := "v" }] } : ExecutableResources).env ∨
            src ∈ emptyRun.env) ∧
      ({ name := "FOOBAR", value := "v" } : EnvVar).name = sanitizeEnvVar src.name :=
  env_names_sanitized { env := [{ name := "$FOO BAR", value := "v" }] } emptyRun
    { name := "FOOBAR", value := "v" } (by decide)

/-- C8 counterexample: an input name starting with two dollar signs keeps
one of them, so the built container holds a name beginning with '$'. -/
theorem env_dollar_counterexample :
    (envOverrides { env := [{ name := "$$LEVEL", value := "v" }] } emptyRun).map EnvVar.name
      = ["$LEVEL"] ∧
    "$LEVEL".toList.head? = some '$' := by
  decide

end Flot

namespace Flot

theorem readLoop_spec (sM : Nat) (rem : List LogLine) (pos : Nat) (acc : String)
    (h : pos ≤ sM + 1) :
    readLoop sM rem pos acc =
      (acc ++ joinAll ((rem.take (sM + 1 - pos)).filterMap id),
       if rem.length < sM + 1 - pos then pos + rem.length + 1 else sM + 1) := by
  induction rem generalizing pos acc with
  | nil =>
    simp only [readLoop, List.take_nil, List.filterMap_nil, joinAll, List.length_nil,
      String.append_empty, Prod.mk.injEq]
    split_ifs <;> simp_all <;> omega
  | cons l rest ih =>
    by_cases hpos : pos ≤ sM
    · have h2 : pos + 1 ≤ sM + 1 := by omega
      have hk : sM + 1 - pos = (sM + 1 - (pos + 1)) + 1 := by omega
      simp only [readLoop]
      rw [if_pos hpos, ih (pos + 1) _ h2, hk]
      cases l with
      | some s =>
        simp only [List.take_succ_cons, List.filterMap_cons, id, joinAll, List.length_cons,
          Prod.mk.injEq]
        constructor
        · rw [String.append_assoc]
        · split_ifs <;> omega
      | none =>
        simp only [List.take_succ_cons, List.filterMap_cons, id, List.length_cons,
          Prod.mk.injEq]
        constructor
        · trivial
        · split_ifs <;> omega
    · have hp1 : pos = sM + 1 := by omega
      simp only [readLoop]
      rw [if_neg hpos]
      simp only [hp1, Nat.sub_self, List.take_zero, List.filterMap_nil, joinAll,
        String.append_empty, Prod.mk.injEq]
      constructor
      · trivial
      · split_ifs <;> omega

theorem logsToMessageString_spec (maxLogLines : Nat) (lines : List LogLine) (sp : Int)
    (h : sp.toNat ≤ lines.length) :
    logsToMessageString maxLogLines lines sp =
      (joinAll (((lines.drop sp.toNat).take (maxLogLines + 1)).filterMap id),
       ((min (sp.toNat + maxLogLines + 1) (lines.length + 1) : Nat) : Int)) := by
  unfold logsToMessageString
  rw [if_neg (by omega)]
  rw [readLoop_spec (sp.toNat + maxLogLines) (lines.drop sp.toNat) sp.toNat "" (by omega)]
  have hk : sp.toNat + maxLogLines + 1 - sp.toNat = maxLogLines + 1 := by omega
  rw [hk]
  simp only [List.length_drop, Prod.mk.injEq]
  constructor
  · rfl
  · have : (if lines.length - sp.toNat < maxLogLines + 1
        then sp.toNat + (lines.length - sp.toNat) + 1
        else sp.toNat + maxLogLines + 1)
        = min (sp.toNat + maxLogLines + 1) (lines.length + 1) := by
      split_ifs <;> omega
    rw [this]

/-- C2 (amended): a paginated Logs call skips startingPosition lines (a
missing or unparseable cursor meaning position 0), then reads at most
MaxLogLines + 1 further lines (the loop bound is inclusive), appending the
log field of each JSON-parseable line and skipping malformed lines, and
returns the advanced line offset as the next cursor. -/
theorem logs_pagination (maxLogLines : Nat) (lines : List LogLine) (cursor : Option String)
    (h : startOf cursor ≤ lines.length) :
    LogsCall maxLogLines lines cursor =
      (joinAll (((lines.drop (startOf cursor)).take (maxLogLines + 1)).filterMap id),
       toString ((min (startOf cursor + maxLogLines + 1) (lines.length + 1) : Nat) : Int)) := by
  simp only [LogsCall]
  rw [logsToMessageString_spec maxLogLines lines _ h]
  rfl

theorem logs_pagination_witness :
    startOf (some "102") ≤ demoLines.length ∧
    LogsCall 50 demoLines (some "102") =
      (joinAll (((demoLines.drop (startOf (some "102"))).take (50 + 1)).filterMap id),
       toString ((min (startOf (some "102") + 50 + 1) (demoLines.length + 1) : Nat) : Int)) :=
  ⟨by decide, logs_pagination 50 demoLines (some "102") (by decide)⟩

set_option maxRecDepth 4000 in
/-- C2 counterexample: for the 120-line object with MaxLogLines = 50, the
first call with an empty cursor returns the first 51 log fields (and
cursor "51"), not the claimed exactly-50. -/
theorem logs_first_call_counterexample :
    ¬ (LogsCall 50 demoLines none).1 = joinAll ((List.range 50).map demoLog) ∧
    (LogsCall 50 demoLines none).1 = joinAll ((List.range 51).map demoLog) ∧
    (LogsCall 50 demoLines none).2 = "51" := by
  decide

end Flot

namespace Flot

theorem PodEvent.Equal_iff (a b : PodEvent) : a.Equal b = true ↔ a = b := by
  cases a
  cases b
  simp [PodEvent.Equal]
  tauto

theorem any_Equal_iff_mem (l : List PodEvent) (e : PodEvent) :
    (l.any fun pe => pe.Equal e) = true ↔ e ∈ l := by
  simp only [List.any_eq_true, PodEvent.Equal_iff]
  constructor
  · rintro ⟨x, hx, rfl⟩
    exact hx
  · intro hx
    exact ⟨e, hx, rfl⟩

theorem mergeFold_nodup_append (new prior : List PodEvent) (hprior : prior.Nodup) :
    (new.foldl mergeOne prior).Nodup ∧
    ∃ added, new.foldl mergeOne prior = prior ++ added ∧ ∀ e ∈ added, e ∉ prior := by
  induction new generalizing prior with
  | nil => exact ⟨hprior, [], by simp, by simp⟩
  | cons e rest ih =>
    simp only [List.foldl_cons]
    by_cases he : e ∈ prior
    · have hm : mergeOne prior e = prior := by
        unfold mergeOne
        rw [if_pos ((any_Equal_iff_mem prior e).mpr he)]
      rw [hm]
      exact ih prior hprior
    · have hm : mergeOne prior e = prior ++ [e] := by
        unfold mergeOne
        rw [if_neg (fun hcontra => he ((any_Equal_iff_mem prior e).mp hcontra))]
      rw [hm]
      have hnodup : (prior ++ [e]).Nodup := by
        simp [List.nodup_append, hprior, he]
      obtain ⟨hn, added, heq, hunseen⟩ := ih (prior ++ [e]) hnodup
      refine ⟨hn, [e] ++ added, by rw [heq, List.append_assoc], ?_⟩
      intro x hx
      rcases List.mem_append.mp hx with hx1 | hx1
      · simp only [List.mem_singleton] at hx1
        rw [hx1]
        exact he
      · intro hxp
        exact (hunseen x hx1) (List.mem_append.mpr (Or.inl hxp))

/-- C6: the pod-event merge never produces two value-equal entries and
grows the list only by appending events not already present, so entry
order is first-observation order.  The incoming batch is assumed
duplicate-free: event objects in one cluster listing have pairwise
distinct names and hence distinct SourceObject fields. -/
theorem podEvents_merge_nodup (prior : Option (List PodEvent)) (new : List PodEvent)
    (hprior : (prior.getD []).Nodup) (hnew : new.Nodup) :
    (mergeEvents prior new).Nodup ∧
    ∃ added, mergeEvents prior new = (prior.getD []) ++ added ∧
      ∀ e ∈ added, e ∉ prior.getD [] := by
  cases prior with
  | none =>
    refine ⟨by simpa [mergeEvents] using hnew, new, by simp [mergeEvents], by simp⟩
  | some pl =>
    by_cases hlen : pl.length > 0
    · have hme : mergeEvents (some pl) new = new.foldl mergeOne pl := by
        simp [mergeEvents, hlen]
      simp only [Option.getD_some] at hprior ⊢
      rw [hme]
      exact mergeFold_nodup_append new pl hprior
    · have hpl : pl = [] := List.length_eq_zero.mp (by omega)
      subst hpl
      refine ⟨by simpa [mergeEvents] using hnew, new, by simp [mergeEvents], by simp⟩

theorem podEvents_merge_nodup_witness :
    (mergeEvents (some [evA]) [evA, evB]).Nodup ∧
    ∃ added, mergeEvents (some [evA]) [evA, evB] = ((some [evA]).getD []) ++ added ∧
      ∀ e ∈ added, e ∉ ((some [evA]).getD [] : List PodEvent) :=
  podEvents_merge_nodup (some [evA]) [evA, evB] (by decide) (by decide)

theorem fetchPodMetrics_fields (m : Option (Option MetricsUsage)) (run : Run) :
    (FetchPodMetrics m run).1.podName = run.podName ∧
    (FetchPodMetrics m run).1.queuedAt = run.queuedAt := by
  unfold FetchPodMetrics
  rcases hpn : run.podName with _ | pn <;> rcases m with _ | (_ | u) <;> simp [hpn]

theorem adapt_failed_pod_none (now : Int) (job : JobStatus) (run : Run)
    (hA : job.active = 0) (hS : job.succeeded = 0) (hF : job.failed = 1) :
    (AdaptJobToFlotillaRun now job run none).status = RunStatus.stopped ∧
    (AdaptJobToFlotillaRun now job run none).exitCode = some 1 := by
  obtain ⟨a, su, f, st, ct⟩ := job
  simp only at hA hS hF
  subst hA
  subst hS
  subst hF
  unfold AdaptJobToFlotillaRun
  norm_num
  cases st <;> cases ct <;> simp

/-- C5: the dangling-job rule: with an empty pod list, PodName previously
set and QueuedAt older than 24 hours, FetchUpdateStatus terminates the job
and synthesizes Failed = 1, so the returned run is stopped with exit code
1 (hypotheses: the fetched job showed no active or succeeded count, the
events query succeeded and the issued Terminate succeeded). -/
theorem dangling_job_stopped (now : Int) (job : JobStatus)
    (metricsResult : Option (Option MetricsUsage)) (evs : List PodEvent)
    (run : Run) (pn : String) (q : Int)
    (hA : job.active = 0) (hS : job.succeeded = 0)
    (hpn : run.podName = some pn) (hq : run.queuedAt = some q) (hstale : q < now - 24) :
    (FetchUpdateStatus now (some job) (some []) metricsResult (some evs) true run).1.status
      = RunStatus.stopped ∧
    (FetchUpdateStatus now (some job) (some []) metricsResult (some evs) true run).1.exitCode
      = some 1 ∧
    (FetchUpdateStatus now (some job) (some []) metricsResult (some evs) true run).2 = none := by
  have hm := fetchPodMetrics_fields metricsResult run
  have hpn1 : (FetchPodMetrics metricsResult run).1.podName = some pn := by
    rw [hm.1, hpn]
  have hq1 : (FetchPodMetrics metricsResult run).1.queuedAt = some q := by
    rw [hm.2, hq]
  unfold FetchUpdateStatus
  simp only [GetEvents, hpn1, List.length_nil, gt_iff_lt, lt_self_iff_false, if_false,
    Option.isSome_some, Option.getD_some]
  split_ifs with h1 h2 h3
  · refine ⟨(adapt_failed_pod_none now _ _ (by simpa using hA) (by simpa using hS) (by simp)).1,
            (adapt_failed_pod_none now _ _ (by simpa using hA) (by simpa using hS) (by simp)).2,
            trivial⟩
  · exfalso
    apply h2
    refine ⟨⟨trivial, trivial, by simp [hpn1], ?_⟩, trivial⟩
    simpa [hq1] using hstale
  · refine ⟨(adapt_failed_pod_none now _ _ (by simpa using hA) (by simpa using hS) (by simp)).1,
            (adapt_failed_pod_none now _ _ (by simpa using hA) (by simpa using hS) (by simp)).2,
            trivial⟩
  · exfalso
    apply h3
    refine ⟨⟨trivial, trivial, by simp [hpn1], ?_⟩, trivial⟩
    simpa [hq1] using hstale

theorem dangling_job_stopped_witness :
    (FetchUpdateStatus 100 (some {}) (some []) none (some [evA])
      true { emptyRun with podName := some "p", queuedAt := some 0 }).1.status
      = RunStatus.stopped ∧
    (FetchUpdateStatus 100 (some {}) (some []) none (some [evA])
      true { emptyRun with podName := some "p", queuedAt := some 0 }).1.exitCode
      = some 1 ∧
    (FetchUpdateStatus 100 (some {}) (some []) none (some [evA])
      true { emptyRun with podName := some "p", queuedAt := some 0 }).2 = none :=
  dangling_job_stopped 100 {} none [evA] { emptyRun with podName := some "p", queuedAt := some 0 }
    "p" 0 rfl rfl rfl rfl (by omega)

end Flot
